import Mathlib

/-!
Verification of the worker core of `python-gearman` (`gearman/worker.py`):
a shallow embedding of `GearmanWorker`'s connection supervision, ability
registry, job lock, job dispatch and result sending, together with proofs
of the behavioural properties stated in the specification.

Modelling conventions:
* command handlers and connections are identified by `Nat` ids;
* Python dicts become association lists (`List (_ × _)`), with lookup,
  insert-or-overwrite (`d[k] = v`) and `pop(k, None)` mirrored directly;
* fallible Python code (a dict subscript that may raise `KeyError`, a
  `connect()` that may raise `ConnectionError`, `None.on_connect()` raising
  `AttributeError`) is embedded in `Except PyError`; Python's
  `except Exception` corresponds to catching any `PyError`;
* outgoing protocol calls on a command handler are recorded as a trace of
  `Msg` values rather than performing I/O;
* the `work` loop is driven by a finite script of per-iteration
  environments (the alive list produced by `get_alive_connections`, and the
  results of the `before_poll` / `poll` / `after_poll` collaborators), and
  returns the per-iteration event traces, the connections closed at exit
  and the loop outcome.
-/

/-- Exceptions that the embedded code can raise.  All of these derive from
Python's `Exception`, so Python's bare `except Exception:` catches each of
them. -/
inductive PyError where
  /-- `KeyError`: subscripting a dict with a missing key. -/
  | keyError : PyError
  /-- `gearman.errors.ConnectionError`, raised by `Connection.connect()`. -/
  | connectionError : PyError
  /-- `AttributeError`: calling a method on `None`. -/
  | attributeError : PyError
  /-- an arbitrary exception raised by a user-registered job callback. -/
  | callbackError : PyError
  deriving DecidableEq, Repr

/-- A job value: `GearmanJob(conn, handle, task, unique, data)`.  The job
references its originating connection by id. -/
structure GearmanJob where
  conn : Nat
  handle : String
  func : String
  unique : String
  data : String
  deriving DecidableEq, Repr

/-- A registered job callback: it receives the job and either returns a
result payload or raises. -/
def Cb : Type := GearmanJob → Except PyError String

/-- Outgoing protocol-level calls made on a command handler, recorded as a
trace.  Each message names the handler it is sent through and the job
handle it concerns. -/
inductive Msg where
  | msgComplete (handler : Nat) (jobHandle : String) (data : String) : Msg
  | msgFailure (handler : Nat) (jobHandle : String) : Msg
  | msgException (handler : Nat) (jobHandle : String) (data : String) : Msg
  deriving DecidableEq, Repr

/-- Association-list lookup, modelling `d.get(k)` / `k in d` on a dict with
`Nat` keys. -/
def lookupAssoc (l : List (Nat × Nat)) (k : Nat) : Option Nat :=
  match l with
  | [] => none
  | (a, b) :: rest => if a = k then some b else lookupAssoc rest k

/-- Lookup in the ability table, modelling `self.worker_abilities.get(name)` /
`name in self.worker_abilities`. -/
def abLookup (l : List (String × Cb)) (k : String) : Option Cb :=
  match l with
  | [] => none
  | (a, b) :: rest => if a = k then some b else abLookup rest k

/-- The key list of the ability table, modelling
`self.worker_abilities.keys()`. -/
def abKeys (l : List (String × Cb)) : List String :=
  l.map Prod.fst

/-- Dict assignment `d[k] = v`: overwrite the existing entry for `k` if
present, otherwise append a new entry. -/
def abInsert (l : List (String × Cb)) (k : String) (v : Cb) : List (String × Cb) :=
  match l with
  | [] => [(k, v)]
  | (a, b) :: rest => if a = k then (a, v) :: rest else (a, b) :: abInsert rest k v

/-- Dict removal `d.pop(k, None)`: drop any entry for `k`, no error when
absent. -/
def abRemove (l : List (String × Cb)) (k : String) : List (String × Cb) :=
  match l with
  | [] => []
  | (a, b) :: rest => if a = k then abRemove rest k else (a, b) :: abRemove rest k

/-- The mutable state of a `GearmanWorker` that the claims concern:
the ability table, the handler↔connection maps maintained by the
connection-manager base class, the job-lock holder, and, for each command
handler, the ability key list last pushed to it via `set_abilities`. -/
structure Worker where
  worker_abilities : List (String × Cb)
  handler_to_connection_map : List (Nat × Nat)
  connection_to_handler_map : List (Nat × Nat)
  command_handler_holding_job_lock : Option Nat
  handler_abilities : Nat → List String

/-- The handlers currently known to the worker: the key set of
`self.handler_to_connection_map`. -/
def Worker.handlers (w : Worker) : List Nat :=
  w.handler_to_connection_map.map Prod.fst

/-- `GearmanWorker.set_job_lock(command_handler, lock)`: returns the updated
worker and the boolean result.  Unknown handlers fail; a lock request fails
while any handler holds the lock; an unlock request fails unless the
requester is exactly the holder; otherwise the holder is set or cleared. -/
def set_job_lock (w : Worker) (command_handler : Nat) (lock : Bool) : Worker × Bool :=
  if lookupAssoc w.handler_to_connection_map command_handler = none then
    (w, false)
  else
    let failed_lock := lock = true ∧ w.command_handler_holding_job_lock ≠ none
    let failed_unlock :=
      lock = false ∧ w.command_handler_holding_job_lock ≠ some command_handler
    if failed_lock ∨ failed_unlock then
      (w, false)
    else if lock then
      ({ w with command_handler_holding_job_lock := some command_handler }, true)
    else
      ({ w with command_handler_holding_job_lock := none }, true)

/-- `GearmanWorker.check_job_lock(command_handler)`. -/
def check_job_lock (w : Worker) (command_handler : Nat) : Bool :=
  decide (w.command_handler_holding_job_lock = some command_handler)

/-- `GearmanWorker.create_job(command_handler, job_handle, function_name,
unique, data)`: the subscript `self.handler_to_connection_map[command_handler]`
raises `KeyError` for an unknown handler; otherwise a job bound to the
handler's connection is constructed. -/
def create_job (w : Worker) (command_handler : Nat)
    (job_handle function_name unique data : String) : Except PyError GearmanJob :=
  match lookupAssoc w.handler_to_connection_map command_handler with
  | none => Except.error PyError.keyError
  | some current_connection =>
      Except.ok ⟨current_connection, job_handle, function_name, unique, data⟩

/-- `GearmanWorker._get_handler_for_job(current_job)`: the subscript
`self.connection_to_handler_map[current_job.conn]` raises `KeyError` when
the job's connection is unknown. -/
def getHandlerForJob (w : Worker) (current_job : GearmanJob) : Except PyError Nat :=
  match lookupAssoc w.connection_to_handler_map current_job.conn with
  | none => Except.error PyError.keyError
  | some current_handler => Except.ok current_handler

/-- `GearmanWorker.send_job_complete(current_job, data)`: resolve the owning
handler and forward one `send_job_complete` protocol call. -/
def send_job_complete (w : Worker) (current_job : GearmanJob) (data : String) :
    Except PyError (List Msg) := do
  let current_handler ← getHandlerForJob w current_job
  return [Msg.msgComplete current_handler current_job.handle data]

/-- `GearmanWorker.send_job_failure(current_job)`. -/
def send_job_failure (w : Worker) (current_job : GearmanJob) :
    Except PyError (List Msg) := do
  let current_handler ← getHandlerForJob w current_job
  return [Msg.msgFailure current_handler current_job.handle]

/-- `GearmanWorker.send_job_exception(current_job, data)`: one handler
lookup, then a `send_job_exception` protocol call followed by a
`send_job_failure` protocol call on the same handler. -/
def send_job_exception (w : Worker) (current_job : GearmanJob) (data : String) :
    Except PyError (List Msg) := do
  let current_handler ← getHandlerForJob w current_job
  return [Msg.msgException current_handler current_job.handle data,
          Msg.msgFailure current_handler current_job.handle]

/-- `GearmanWorker.on_job_exception(current_job, exc_info)`: send a failure
message, return `False`.  The message trace is returned alongside. -/
def on_job_exception (w : Worker) (current_job : GearmanJob) :
    Except PyError (Bool × List Msg) := do
  let msgs ← send_job_failure w current_job
  return (false, msgs)

/-- `GearmanWorker.on_job_complete(current_job, job_result)`: send a
complete message carrying the result, return `True`. -/
def on_job_complete (w : Worker) (current_job : GearmanJob) (job_result : String) :
    Except PyError (Bool × List Msg) := do
  let msgs ← send_job_complete w current_job job_result
  return (true, msgs)

/-- `GearmanWorker.on_job_execute(current_job)`.  The `try:` block covers
both the ability lookup `self.worker_abilities[current_job.func]` (whose
`KeyError` is a `PyError` like any other) and the callback invocation;
`except Exception:` catches any such error and delegates to
`on_job_exception`; a normal result is delegated to `on_job_complete`.
Errors raised by the delegates themselves are outside the `try:` and
propagate. -/
def on_job_execute (w : Worker) (current_job : GearmanJob) :
    Except PyError (Bool × List Msg) :=
  let tried : Except PyError String :=
    match abLookup w.worker_abilities current_job.func with
    | none => Except.error PyError.keyError
    | some function_callback => function_callback current_job
  match tried with
  | Except.error _ => on_job_exception w current_job
  | Except.ok job_result => on_job_complete w current_job job_result

/-- Broadcasting a key list to a list of handlers: each handler in turn has
its stored ability list overwritten (`command_handler.set_abilities(keys)`). -/
def setAbilitiesAll (hs : List Nat) (f : Nat → List String) (keys : List String) :
    Nat → List String :=
  match hs with
  | [] => f
  | h :: rest => setAbilitiesAll rest (fun x => if x = h then keys else f x) keys

/-- `GearmanWorker.register_function(function_name, callback_function)`:
insert/overwrite the ability, push the new key set to every mapped handler,
return the name. -/
def register_function (w : Worker) (function_name : String) (callback_function : Cb) :
    Worker × String :=
  let abs := abInsert w.worker_abilities function_name callback_function
  ({ w with
      worker_abilities := abs,
      handler_abilities := setAbilitiesAll w.handlers w.handler_abilities (abKeys abs) },
   function_name)

/-- `GearmanWorker.unregister_function(function_name)`: `pop(name, None)`
(no error when absent), push the new key set to every mapped handler,
return the name. -/
def unregister_function (w : Worker) (function_name : String) : Worker × String :=
  let abs := abRemove w.worker_abilities function_name
  ({ w with
      worker_abilities := abs,
      handler_abilities := setAbilitiesAll w.handlers w.handler_abilities (abKeys abs) },
   function_name)

/-- The dynamic state of one connection: whether it is currently connected,
and whether a `connect()` call on it would succeed (raising
`ConnectionError` otherwise). -/
structure ConnState where
  connected : Bool
  connectOk : Bool
  deriving DecidableEq, Repr

/-- The reconnect pass of `get_alive_connections`: walk the shuffled list;
skip connections that are already connected; otherwise `connect()` —
a `ConnectionError` is swallowed (`continue`), while on success
`self.connection_to_handler_map.get(conn)` is fetched and `on_connect()` is
called on it, which raises `AttributeError` when the `get` returned
`None`. -/
def reconnectPass (c2h : List (Nat × Nat)) :
    List Nat → (Nat → ConnState) → Except PyError (Nat → ConnState)
  | [], st => Except.ok st
  | conn :: rest, st =>
    if (st conn).connected then
      reconnectPass c2h rest st
    else if (st conn).connectOk then
      match lookupAssoc c2h conn with
      | some _ =>
          reconnectPass c2h rest
            (fun x => if x = conn then { st x with connected := true } else st x)
      | none => Except.error PyError.attributeError
    else
      reconnectPass c2h rest st

/-- `GearmanWorker.get_alive_connections()`, taking the shuffled copy of
`self.connection_list` as input (the shuffle order is data here): run the
reconnect pass, then return the connections of the shuffled list that are
connected afterwards. -/
def get_alive_connections (c2h : List (Nat × Nat)) (shuffled : List Nat)
    (st : Nat → ConnState) : Except PyError (List Nat) :=
  match reconnectPass c2h shuffled st with
  | Except.error e => Except.error e
  | Except.ok st2 => Except.ok (shuffled.filter (fun conn => (st2 conn).connected))

/-- The environment one iteration of `work` observes from its
collaborators: the list returned by `get_alive_connections()`, the result
of the `before_poll()` hook, the activity flag returned by
`poll_connections_once`, and the result of the `after_poll(...)` hook. -/
structure IterEnv where
  alive : List Nat
  beforeRes : Bool
  activity : Bool
  afterRes : Bool
  deriving DecidableEq, Repr

/-- Events of one `work` iteration, in program order. -/
inductive Ev where
  | evGetAlive (alive : List Nat) : Ev
  | evBeforePoll (r : Bool) : Ev
  | evPoll (conns : List Nat) (activity : Bool) : Ev
  | evAfterPoll (r : Bool) : Ev
  deriving DecidableEq, Repr

/-- How `work` terminated. -/
inductive WorkOutcome where
  /-- clean return: a hook requested stop and every close succeeded. -/
  | finished : WorkOutcome
  /-- `raise ServerUnavailable('Found no valid connections in list: %r' %
  self.connection_list)`: the payload is the full configured connection
  list named by the message. -/
  | serverUnavailable (conns : List Nat) : WorkOutcome
  /-- a `close()` call in the shutdown loop raised; the error propagates
  out of `work`. -/
  | closeFailed : WorkOutcome
  /-- the finite iteration script ran out while the loop would continue. -/
  | outOfFuel : WorkOutcome
  deriving DecidableEq, Repr

/-- The shutdown loop `for current_connection in alive_connections:
current_connection.close()`: there is no error handling, so the first
failing `close()` stops the loop with the error propagating.  Returns the
connections actually closed and whether the loop completed. -/
def closeAll (closeOk : Nat → Bool) : List Nat → List Nat × Bool
  | [] => ([], true)
  | conn :: rest =>
    if closeOk conn then
      let r := closeAll closeOk rest
      (conn :: r.1, r.2)
    else
      ([], false)

/-- The observable result of a `work` run. -/
structure WorkResult where
  /-- per-iteration event traces, in order. -/
  iters : List (List Ev)
  /-- the value of `alive_connections` when the loop exited. -/
  lastAlive : List Nat
  /-- the connections closed by the shutdown loop, in order. -/
  closed : List Nat
  outcome : WorkOutcome
  deriving DecidableEq, Repr

/-- `GearmanWorker.work(poll_timeout)`, driven by a finite script of
iteration environments.  Each iteration: recompute `alive_connections`;
raise `ServerUnavailable` naming `self.connection_list` when it is empty;
call `before_poll()`, breaking on false; poll; call `after_poll(activity)`,
leaving the loop on false.  On leaving the loop (break or `after_poll`
false) the shutdown loop closes `alive_connections`. -/
def work (connection_list : List Nat) (closeOk : Nat → Bool) :
    List IterEnv → WorkResult
  | [] => ⟨[], [], [], WorkOutcome.outOfFuel⟩
  | e :: rest =>
    if e.alive = [] then
      ⟨[[Ev.evGetAlive e.alive]], e.alive, [],
        WorkOutcome.serverUnavailable connection_list⟩
    else if e.beforeRes = false then
      let c := closeAll closeOk e.alive
      ⟨[[Ev.evGetAlive e.alive, Ev.evBeforePoll false]], e.alive, c.1,
        if c.2 then WorkOutcome.finished else WorkOutcome.closeFailed⟩
    else if e.afterRes = false then
      let c := closeAll closeOk e.alive
      ⟨[[Ev.evGetAlive e.alive, Ev.evBeforePoll true,
          Ev.evPoll e.alive e.activity, Ev.evAfterPoll false]], e.alive, c.1,
        if c.2 then WorkOutcome.finished else WorkOutcome.closeFailed⟩
    else
      let r := work connection_list closeOk rest
      ⟨[Ev.evGetAlive e.alive, Ev.evBeforePoll true,
          Ev.evPoll e.alive e.activity, Ev.evAfterPoll true] :: r.iters,
        r.lastAlive, r.closed, r.outcome⟩

/-- An iteration whose environment satisfies this continues the loop: the
alive list is nonempty and both hooks return true. -/
def continuesIter (e : IterEnv) : Prop :=
  e.alive ≠ [] ∧ e.beforeRes = true ∧ e.afterRes = true

instance (e : IterEnv) : Decidable (continuesIter e) := by
  unfold continuesIter; infer_instance

/-- The event trace of a full (continuing) iteration. -/
def fullIterTrace (e : IterEnv) : List Ev :=
  [Ev.evGetAlive e.alive, Ev.evBeforePoll true,
    Ev.evPoll e.alive e.activity, Ev.evAfterPoll true]

/-- A sample worker used to instantiate the universally quantified
theorems: two handlers `1, 2` on connections `10, 20`, no abilities, lock
free. -/
def wEx : Worker :=
  ⟨[], [(1, 10), (2, 20)], [(10, 1), (20, 2)], none, fun _ => []⟩

/-- A sample callback that returns its job's payload reversed. -/
def cbRev : Cb := fun job => Except.ok (String.mk job.data.toList.reverse)

/-- A sample callback that raises. -/
def cbBoom : Cb := fun _ => Except.error PyError.callbackError

section SetJobLockLemmas

lemma set_job_lock_unknown (w : Worker) (ch : Nat) (lock : Bool)
    (hk : lookupAssoc w.handler_to_connection_map ch = none) :
    set_job_lock w ch lock = (w, false) := by
  simp [set_job_lock, hk]

lemma set_job_lock_held (w : Worker) (ch : Nat)
    (hk : lookupAssoc w.handler_to_connection_map ch ≠ none)
    (hh : w.command_handler_holding_job_lock ≠ none) :
    set_job_lock w ch true = (w, false) := by
  simp [set_job_lock, hk, hh]

lemma set_job_lock_unlock_nonholder (w : Worker) (ch : Nat)
    (hk : lookupAssoc w.handler_to_connection_map ch ≠ none)
    (hh : w.command_handler_holding_job_lock ≠ some ch) :
    set_job_lock w ch false = (w, false) := by
  simp [set_job_lock, hk, hh]

lemma set_job_lock_acquire (w : Worker) (ch : Nat)
    (hk : lookupAssoc w.handler_to_connection_map ch ≠ none)
    (hh : w.command_handler_holding_job_lock = none) :
    set_job_lock w ch true =
      ({ w with command_handler_holding_job_lock := some ch }, true) := by
  simp [set_job_lock, hk, hh]

lemma set_job_lock_release (w : Worker) (ch : Nat)
    (hk : lookupAssoc w.handler_to_connection_map ch ≠ none)
    (hh : w.command_handler_holding_job_lock = some ch) :
    set_job_lock w ch false =
      ({ w with command_handler_holding_job_lock := none }, true) := by
  simp [set_job_lock, hk, hh]

lemma set_job_lock_map_eq (w : Worker) (ch : Nat) (lock : Bool) :
    (set_job_lock w ch lock).1.handler_to_connection_map
      = w.handler_to_connection_map := by
  by_cases hk : lookupAssoc w.handler_to_connection_map ch = none
  · rw [set_job_lock_unknown w ch lock hk]
  · cases lock
    · by_cases hh : w.command_handler_holding_job_lock = some ch
      · rw [set_job_lock_release w ch hk hh]
      · rw [set_job_lock_unlock_nonholder w ch hk hh]
    · by_cases hh : w.command_handler_holding_job_lock = none
      · rw [set_job_lock_acquire w ch hk hh]
      · rw [set_job_lock_held w ch hk hh]

lemma holder_after_acquire_ne_none (w : Worker) (ch : Nat)
    (hk : lookupAssoc w.handler_to_connection_map ch ≠ none) :
    (set_job_lock w ch true).1.command_handler_holding_job_lock ≠ none := by
  cases hh : w.command_handler_holding_job_lock with
  | none => rw [set_job_lock_acquire w ch hk hh]; simp
  | some x => rw [set_job_lock_held w ch hk (by simp [hh])]; simp [hh]

end SetJobLockLemmas

/-- C3: lock/unlock outcomes of `set_job_lock` for known handlers `h1, h2`:
acquiring while held (by anyone, including the requester) fails; releasing
while the holder is not exactly the releaser fails; an unknown handler
always gets `false` back (the function is total — no exception); otherwise
the holder is set or cleared with `true`; consequently acquire by `h1`,
release by `h1`, acquire by `h2` all succeed from a free lock, and a second
acquire without an intervening release always fails. -/
theorem set_job_lock_spec (w : Worker) (h1 h2 : Nat) (lock : Bool)
    (hk1 : lookupAssoc w.handler_to_connection_map h1 ≠ none)
    (hk2 : lookupAssoc w.handler_to_connection_map h2 ≠ none) :
    (w.command_handler_holding_job_lock ≠ none →
      (set_job_lock w h1 true).2 = false) ∧
    (w.command_handler_holding_job_lock ≠ some h1 →
      (set_job_lock w h1 false).2 = false) ∧
    (∀ w0 : Worker, ∀ ch : Nat,
      lookupAssoc w0.handler_to_connection_map ch = none →
      set_job_lock w0 ch lock = (w0, false)) ∧
    (w.command_handler_holding_job_lock = none →
      set_job_lock w h1 true =
        ({ w with command_handler_holding_job_lock := some h1 }, true)) ∧
    (w.command_handler_holding_job_lock = some h1 →
      set_job_lock w h1 false =
        ({ w with command_handler_holding_job_lock := none }, true)) ∧
    (w.command_handler_holding_job_lock = none →
      (set_job_lock w h1 true).2 = true ∧
      (set_job_lock (set_job_lock w h1 true).1 h1 false).2 = true ∧
      (set_job_lock (set_job_lock (set_job_lock w h1 true).1 h1 false).1 h2 true).2
        = true) ∧
    (set_job_lock (set_job_lock w h1 true).1 h2 true).2 = false := by
  refine ⟨?_, ?_, ?_, ?_, ?_, ?_, ?_⟩
  · intro hh; rw [set_job_lock_held w h1 hk1 hh]
  · intro hh; rw [set_job_lock_unlock_nonholder w h1 hk1 hh]
  · intro w0 ch hk; exact set_job_lock_unknown w0 ch lock hk
  · intro hh; exact set_job_lock_acquire w h1 hk1 hh
  · intro hh; exact set_job_lock_release w h1 hk1 hh
  · intro hh
    have s1 := set_job_lock_acquire w h1 hk1 hh
    refine ⟨by rw [s1], ?_, ?_⟩
    · rw [s1]; rw [set_job_lock_release _ h1 (by simpa using hk1) rfl]
    · rw [s1]; rw [set_job_lock_release _ h1 (by simpa using hk1) rfl]
      rw [set_job_lock_acquire _ h2 (by simpa using hk2) rfl]
  · have hk2b : lookupAssoc (set_job_lock w h1 true).1.handler_to_connection_map h2
        ≠ none := by
      rw [set_job_lock_map_eq]; exact hk2
    rw [set_job_lock_held _ h2 hk2b (holder_after_acquire_ne_none w h1 hk1)]

/-- C3 witness: instantiating `set_job_lock_spec` on the sample worker. -/
theorem set_job_lock_spec_witness :
    (set_job_lock wEx 1 true).2 = true ∧
    (set_job_lock (set_job_lock wEx 1 true).1 1 false).2 = true ∧
    (set_job_lock (set_job_lock (set_job_lock wEx 1 true).1 1 false).1 2 true).2
      = true :=
  (set_job_lock_spec wEx 1 2 true (by decide) (by decide)).2.2.2.2.2.1 rfl

/-- C10: a `set_job_lock` call that returns `false` leaves the job-lock
holder unchanged, and (structurally) at most one handler holds the lock in
any state. -/
theorem set_job_lock_failure_preserves_holder (w : Worker) (ch : Nat) (lock : Bool)
    (hfail : (set_job_lock w ch lock).2 = false) :
    (set_job_lock w ch lock).1.command_handler_holding_job_lock
      = w.command_handler_holding_job_lock ∧
    (∀ g1 g2 : Nat, check_job_lock w g1 = true → check_job_lock w g2 = true →
      g1 = g2) := by
  constructor
  · by_cases hk : lookupAssoc w.handler_to_connection_map ch = none
    · rw [set_job_lock_unknown w ch lock hk]
    · cases lock
      · by_cases hh : w.command_handler_holding_job_lock = some ch
        · rw [set_job_lock_release w ch hk hh] at hfail; simp at hfail
        · rw [set_job_lock_unlock_nonholder w ch hk hh]
      · by_cases hh : w.command_handler_holding_job_lock = none
        · rw [set_job_lock_acquire w ch hk hh] at hfail; simp at hfail
        · rw [set_job_lock_held w ch hk hh]
  · intro g1 g2 hg1 hg2
    have e1 := of_decide_eq_true hg1
    have e2 := of_decide_eq_true hg2
    rw [e1] at e2
    exact Option.some.inj e2

/-- C10 witness: a failed release on the sample worker (lock not held)
leaves the holder unchanged. -/
theorem set_job_lock_failure_preserves_holder_witness :
    (set_job_lock wEx 1 false).1.command_handler_holding_job_lock
      = wEx.command_handler_holding_job_lock :=
  (set_job_lock_failure_preserves_holder wEx 1 false (by decide)).1

/-- C9: `create_job` with an unknown handler fails with the propagated
lookup error and constructs no job; with a known handler it constructs a
job bound to that handler's connection. -/
theorem create_job_spec (w : Worker) (ch : Nat) (jh fn un da : String) :
    (lookupAssoc w.handler_to_connection_map ch = none →
      create_job w ch jh fn un da = Except.error PyError.keyError) ∧
    (∀ conn, lookupAssoc w.handler_to_connection_map ch = some conn →
      create_job w ch jh fn un da = Except.ok ⟨conn, jh, fn, un, da⟩) := by
  constructor
  · intro hk; simp [create_job, hk]
  · intro conn hk; simp [create_job, hk]

/-- C9 witness: handler `99` is unknown to the sample worker and the call
fails; handler `1` is known and yields a job on connection `10`. -/
theorem create_job_spec_witness :
    create_job wEx 99 "jh" "fn" "un" "da" = Except.error PyError.keyError ∧
    create_job wEx 1 "jh" "fn" "un" "da" = Except.ok ⟨10, "jh", "fn", "un", "da"⟩ :=
  ⟨(create_job_spec wEx 99 "jh" "fn" "un" "da").1 (by decide),
   (create_job_spec wEx 1 "jh" "fn" "un" "da").2 10 (by decide)⟩

/-- C6: when the job's connection has its owning handler mapped,
`send_job_exception` sends exactly an exception message followed by a
failure message, both through that handler, in that order. -/
theorem send_job_exception_spec (w : Worker) (job : GearmanJob) (data : String)
    (h : Nat) (hh : lookupAssoc w.connection_to_handler_map job.conn = some h) :
    send_job_exception w job data =
      Except.ok [Msg.msgException h job.handle data, Msg.msgFailure h job.handle] := by
  simp [send_job_exception, getHandlerForJob, hh]

/-- C6 witness: on the sample worker, a job from connection `10` sends its
exception and failure messages through handler `1`. -/
theorem send_job_exception_spec_witness :
    send_job_exception wEx ⟨10, "jh", "fn", "un", "da"⟩ "exc" =
      Except.ok [Msg.msgException 1 "jh" "exc", Msg.msgFailure 1 "jh"] :=
  send_job_exception_spec wEx ⟨10, "jh", "fn", "un", "da"⟩ "exc" 1 (by decide)

/-- C5: for a registered function name on a job whose handler is mapped, a
raising callback makes `on_job_execute` return `false` with exactly one
failure message (and no complete message), and a normally returning
callback makes it return `true` with exactly one complete message carrying
the callback's result. -/
theorem on_job_execute_registered_spec (w : Worker) (job : GearmanJob) (cb : Cb)
    (h : Nat) (hab : abLookup w.worker_abilities job.func = some cb)
    (hh : lookupAssoc w.connection_to_handler_map job.conn = some h) :
    (∀ e, cb job = Except.error e →
      on_job_execute w job = Except.ok (false, [Msg.msgFailure h job.handle])) ∧
    (∀ res, cb job = Except.ok res →
      on_job_execute w job =
        Except.ok (true, [Msg.msgComplete h job.handle res])) := by
  constructor
  · intro e he
    simp [on_job_execute, hab, he, on_job_exception, send_job_failure,
      getHandlerForJob, hh]
  · intro res hres
    simp [on_job_execute, hab, hres, on_job_complete, send_job_complete,
      getHandlerForJob, hh]

/-- C5 witness: with `"rev"` registered on the sample worker (payload
`"abc"`), a normal callback run completes with `"cba"`; with `"boom"`
registered to a raising callback, the run fails with one failure message. -/
theorem on_job_execute_registered_spec_witness :
    on_job_execute (register_function wEx "rev" cbRev).1 ⟨10, "jh", "rev", "un", "abc"⟩
      = Except.ok (true, [Msg.msgComplete 1 "jh" "cba"]) ∧
    on_job_execute (register_function wEx "boom" cbBoom).1 ⟨10, "jh", "boom", "un", "da"⟩
      = Except.ok (false, [Msg.msgFailure 1 "jh"]) :=
  ⟨(on_job_execute_registered_spec (register_function wEx "rev" cbRev).1
      ⟨10, "jh", "rev", "un", "abc"⟩ cbRev 1 rfl (by decide)).2 "cba" rfl,
   (on_job_execute_registered_spec (register_function wEx "boom" cbBoom).1
      ⟨10, "jh", "boom", "un", "da"⟩ cbBoom 1 rfl (by decide)).1
      PyError.callbackError rfl⟩

/-- The worker of the spec's scenario for C1: one connection `5` with
handler `7`, no registered abilities. -/
def wC1 : Worker := ⟨[], [(7, 5)], [(5, 7)], none, fun _ => []⟩

/-- The `"echo"` job of the spec's scenario for C1. -/
def jobC1 : GearmanJob := ⟨5, "h1", "echo", "u1", "d1"⟩

/-- C1 counterexample: with no registered abilities, `on_job_execute` on an
`"echo"` job does NOT propagate the lookup failure — the `KeyError` is
raised inside the `try:` block, caught by `except Exception:`, and
converted into a job-failure outcome. -/
theorem on_job_execute_unregistered_counterexample :
    on_job_execute wC1 jobC1 = Except.ok (false, [Msg.msgFailure 7 "h1"]) ∧
    ∀ e : PyError, on_job_execute wC1 jobC1 ≠ Except.error e := by
  constructor
  · rfl
  · intro e he
    have heq : Except.ok (false, [Msg.msgFailure 7 "h1"]) = Except.error e :=
      (rfl : on_job_execute wC1 jobC1
        = Except.ok (false, [Msg.msgFailure 7 "h1"])).symm.trans he
    exact Except.noConfusion heq

/-- C1 amended: an unregistered function name makes `on_job_execute`
convert the lookup `KeyError` into a job-failure outcome exactly like a
callback exception — return `false` and send one failure message through
the job's owning handler — rather than propagating it. -/
theorem on_job_execute_unregistered_spec (w : Worker) (job : GearmanJob) (h : Nat)
    (hab : abLookup w.worker_abilities job.func = none)
    (hh : lookupAssoc w.connection_to_handler_map job.conn = some h) :
    on_job_execute w job = Except.ok (false, [Msg.msgFailure h job.handle]) := by
  simp [on_job_execute, hab, on_job_exception, send_job_failure,
    getHandlerForJob, hh]

/-- C1 amended witness: the scenario worker and job. -/
theorem on_job_execute_unregistered_spec_witness :
    on_job_execute wC1 jobC1 = Except.ok (false, [Msg.msgFailure 7 "h1"]) :=
  on_job_execute_unregistered_spec wC1 jobC1 7 rfl (by decide)

section AbilityLemmas

lemma abKeys_mem_iff (l : List (String × Cb)) (s : String) :
    s ∈ abKeys l ↔ (abLookup l s).isSome = true := by
  induction l with
  | nil => simp [abKeys, abLookup]
  | cons p rest ih =>
    obtain ⟨a, b⟩ := p
    have hk : abKeys ((a, b) :: rest) = a :: abKeys rest := rfl
    by_cases ha : a = s
    · subst ha
      constructor
      · intro _; simp [abLookup]
      · intro _; exact hk ▸ List.mem_cons_self a (abKeys rest)
    · rw [hk, abLookup, if_neg ha]
      constructor
      · intro hmem
        rcases List.mem_cons.mp hmem with h1 | h2
        · exact absurd h1.symm ha
        · exact ih.mp h2
      · intro hsome
        exact List.mem_cons_of_mem a (ih.mpr hsome)

lemma setAbilitiesAll_eq (hs : List Nat) (f : Nat → List String)
    (keys : List String) (x : Nat) :
    setAbilitiesAll hs f keys x = if x ∈ hs then keys else f x := by
  induction hs generalizing f with
  | nil => simp [setAbilitiesAll]
  | cons h rest ih =>
    rw [setAbilitiesAll, ih]
    by_cases hx : x ∈ rest
    · simp [hx]
    · by_cases hxh : x = h
      · simp [hx, hxh]
      · simp [hx, hxh]

lemma abRemove_absent (l : List (String × Cb)) (k : String)
    (h : abLookup l k = none) : abRemove l k = l := by
  induction l with
  | nil => rfl
  | cons p rest ih =>
    obtain ⟨a, b⟩ := p
    by_cases ha : a = k
    · subst ha; simp [abLookup] at h
    · rw [abLookup, if_neg ha] at h
      rw [abRemove, if_neg ha, ih h]

end AbilityLemmas

/-- C8: after `register_function` or `unregister_function`, every handler in
the handler map has been pushed exactly the key set of the new ability
table (membership-wise); both calls return the given name; and
unregistering an absent name is not an error (the table is unchanged) while
still re-broadcasting. -/
theorem register_unregister_broadcast_spec (w : Worker) (name : String) (cb : Cb) :
    ((register_function w name cb).2 = name) ∧
    (∀ h ∈ w.handlers, ∀ s : String,
      s ∈ (register_function w name cb).1.handler_abilities h ↔
        (abLookup (register_function w name cb).1.worker_abilities s).isSome
          = true) ∧
    ((unregister_function w name).2 = name) ∧
    (∀ h ∈ w.handlers, ∀ s : String,
      s ∈ (unregister_function w name).1.handler_abilities h ↔
        (abLookup (unregister_function w name).1.worker_abilities s).isSome
          = true) ∧
    (abLookup w.worker_abilities name = none →
      (unregister_function w name).1.worker_abilities = w.worker_abilities) := by
  refine ⟨rfl, ?_, rfl, ?_, ?_⟩
  · intro h hmem s
    show s ∈ setAbilitiesAll w.handlers w.handler_abilities
      (abKeys (abInsert w.worker_abilities name cb)) h ↔ _
    rw [setAbilitiesAll_eq, if_pos hmem, abKeys_mem_iff]
    exact Iff.rfl
  · intro h hmem s
    show s ∈ setAbilitiesAll w.handlers w.handler_abilities
      (abKeys (abRemove w.worker_abilities name)) h ↔ _
    rw [setAbilitiesAll_eq, if_pos hmem, abKeys_mem_iff]
    exact Iff.rfl
  · intro habs
    show abRemove w.worker_abilities name = w.worker_abilities
    exact abRemove_absent w.worker_abilities name habs

/-- C8 witness: registering `"rev"` on the sample worker pushes a key set
containing `"rev"` to handler `1`; unregistering the absent name `"zzz"`
leaves the (empty) table unchanged. -/
theorem register_unregister_broadcast_spec_witness :
    "rev" ∈ (register_function wEx "rev" cbRev).1.handler_abilities 1 ∧
    (unregister_function wEx "zzz").1.worker_abilities = wEx.worker_abilities :=
  ⟨((register_unregister_broadcast_spec wEx "rev" cbRev).2.1 1 (by decide)
      "rev").mpr rfl,
   (register_unregister_broadcast_spec wEx "zzz" cbRev).2.2.2.2 rfl⟩

section AliveConnections

lemma reconnectPass_ok (c2h : List (Nat × Nat)) (l : List Nat)
    (st : Nat → ConnState)
    (hm : ∀ c ∈ l, (lookupAssoc c2h c).isSome = true) :
    ∃ st2, reconnectPass c2h l st = Except.ok st2 ∧
      ∀ x, (st2 x).connected
            = ((st x).connected || (decide (x ∈ l) && (st x).connectOk)) ∧
          (st2 x).connectOk = (st x).connectOk := by
  induction l generalizing st with
  | nil =>
    refine ⟨st, rfl, ?_⟩
    intro x; simp
  | cons c rest ih =>
    by_cases hc : (st c).connected = true
    · obtain ⟨st2, he, hch⟩ := ih st (fun x hx => hm x (List.mem_cons_of_mem c hx))
      refine ⟨st2, ?_, ?_⟩
      · rw [reconnectPass, if_pos hc]; exact he
      · intro x
        refine ⟨?_, (hch x).2⟩
        rw [(hch x).1]
        by_cases hxc : x = c
        · subst hxc; simp [hc]
        · simp [hxc, List.mem_cons]
    · by_cases hok : (st c).connectOk = true
      · have hsome := hm c (List.mem_cons_self c rest)
        obtain ⟨hv, hlv⟩ := Option.isSome_iff_exists.mp hsome
        obtain ⟨st2, he, hch⟩ :=
          ih (fun x => if x = c then { st x with connected := true } else st x)
            (fun x hx => hm x (List.mem_cons_of_mem c hx))
        refine ⟨st2, ?_, ?_⟩
        · rw [reconnectPass, if_neg (by simp [hc]), if_pos hok, hlv]
          exact he
        · intro x
          have h1 := (hch x).1
          have h2 := (hch x).2
          by_cases hxc : x = c
          · subst hxc
            constructor
            · rw [h1]; simp [hok]
            · rw [h2]; simp
          · constructor
            · rw [h1]; simp [hxc, List.mem_cons]
            · rw [h2]; simp [hxc]
      · obtain ⟨st2, he, hch⟩ := ih st (fun x hx => hm x (List.mem_cons_of_mem c hx))
        refine ⟨st2, ?_, ?_⟩
        · rw [reconnectPass, if_neg (by simp [hc]), if_neg (by simp [hok])]
          exact he
        · intro x
          refine ⟨?_, (hch x).2⟩
          rw [(hch x).1]
          by_cases hxc : x = c
          · subst hxc
            cases hcv : (st x).connectOk
            · simp [hcv]
            · exact absurd hcv hok
          · simp [hxc, List.mem_cons]

lemma filter_congr_mem {l : List Nat} {p q : Nat → Bool}
    (h : ∀ x ∈ l, p x = q x) : l.filter p = l.filter q := by
  induction l with
  | nil => rfl
  | cons a rest ih =>
    have ha := h a (List.mem_cons_self a rest)
    have hr := ih (fun x hx => h x (List.mem_cons_of_mem a hx))
    by_cases hp : p a = true
    · rw [List.filter_cons_of_pos hp, List.filter_cons_of_pos (ha ▸ hp), hr]
    · rw [List.filter_cons_of_neg hp,
        List.filter_cons_of_neg (fun hq => hp (ha ▸ hq)), hr]

end AliveConnections

/-- C7: with every connection of the (shuffled) list mapped to a handler,
`get_alive_connections` never raises regardless of which `connect()` calls
fail — each `ConnectionError` is swallowed — and it returns exactly the
connections that are connected after the reconnect pass: those that were
already connected or whose reconnect succeeded; in particular, when every
connection is down the result is the empty list. -/
theorem get_alive_connections_spec (c2h : List (Nat × Nat)) (shuffled : List Nat)
    (st : Nat → ConnState)
    (hm : ∀ c ∈ shuffled, (lookupAssoc c2h c).isSome = true) :
    get_alive_connections c2h shuffled st =
      Except.ok (shuffled.filter
        (fun c => (st c).connected || (st c).connectOk)) := by
  obtain ⟨st2, he, hch⟩ := reconnectPass_ok c2h shuffled st hm
  rw [get_alive_connections, he]
  show Except.ok (shuffled.filter (fun conn => (st2 conn).connected)) = _
  congr 1
  apply filter_congr_mem
  intro x hx
  rw [(hch x).1]
  simp [hx]

/-- C7 witness: connection `10` is down but reconnects, `20` is down and
its `connect()` raises (swallowed) — the result is `[10]`, with no error. -/
theorem get_alive_connections_spec_witness :
    get_alive_connections [(10, 1), (20, 2)] [10, 20]
      (fun c => if c = 10 then ⟨false, true⟩ else ⟨false, false⟩)
      = Except.ok [10] := by
  rw [get_alive_connections_spec [(10, 1), (20, 2)] [10, 20]
    (fun c => if c = 10 then ⟨false, true⟩ else ⟨false, false⟩) (by decide)]
  rfl

section WorkLemmas

lemma work_cons_su (cl : List Nat) (ck : Nat → Bool) (e : IterEnv)
    (rest : List IterEnv) (ha : e.alive = []) :
    work cl ck (e :: rest) =
      ⟨[[Ev.evGetAlive e.alive]], e.alive, [],
        WorkOutcome.serverUnavailable cl⟩ := by
  rw [work, if_pos ha]

lemma work_cons_break (cl : List Nat) (ck : Nat → Bool) (e : IterEnv)
    (rest : List IterEnv) (ha : e.alive ≠ []) (hb : e.beforeRes = false) :
    work cl ck (e :: rest) =
      ⟨[[Ev.evGetAlive e.alive, Ev.evBeforePoll false]], e.alive,
        (closeAll ck e.alive).1,
        if (closeAll ck e.alive).2 then WorkOutcome.finished
          else WorkOutcome.closeFailed⟩ := by
  rw [work, if_neg ha, if_pos hb]

lemma work_cons_stop (cl : List Nat) (ck : Nat → Bool) (e : IterEnv)
    (rest : List IterEnv) (ha : e.alive ≠ []) (hb : e.beforeRes = true)
    (haf : e.afterRes = false) :
    work cl ck (e :: rest) =
      ⟨[[Ev.evGetAlive e.alive, Ev.evBeforePoll true,
          Ev.evPoll e.alive e.activity, Ev.evAfterPoll false]], e.alive,
        (closeAll ck e.alive).1,
        if (closeAll ck e.alive).2 then WorkOutcome.finished
          else WorkOutcome.closeFailed⟩ := by
  rw [work, if_neg ha, if_neg (by simp [hb]), if_pos haf]

lemma work_cons_cont (cl : List Nat) (ck : Nat → Bool) (e : IterEnv)
    (rest : List IterEnv) (ha : e.alive ≠ []) (hb : e.beforeRes = true)
    (haf : e.afterRes = true) :
    work cl ck (e :: rest) =
      ⟨fullIterTrace e :: (work cl ck rest).iters, (work cl ck rest).lastAlive,
        (work cl ck rest).closed, (work cl ck rest).outcome⟩ := by
  rw [work, if_neg ha, if_neg (by simp [hb]), if_neg (by simp [haf])]
  rfl

lemma work_append_continuing (cl : List Nat) (ck : Nat → Bool)
    (pre l : List IterEnv) (h : ∀ e ∈ pre, continuesIter e) :
    work cl ck (pre ++ l) =
      ⟨pre.map fullIterTrace ++ (work cl ck l).iters, (work cl ck l).lastAlive,
        (work cl ck l).closed, (work cl ck l).outcome⟩ := by
  induction pre with
  | nil => simp
  | cons e pre2 ih =>
    obtain ⟨ha, hb, haf⟩ := h e (List.mem_cons_self e pre2)
    rw [List.cons_append, work_cons_cont cl ck e (pre2 ++ l) ha hb haf,
      ih (fun x hx => h x (List.mem_cons_of_mem e hx))]
    simp

lemma closeAll_all_ok (ck : Nat → Bool) (l : List Nat)
    (h : ∀ c ∈ l, ck c = true) : closeAll ck l = (l, true) := by
  induction l with
  | nil => rfl
  | cons c rest ih =>
    rw [closeAll, if_pos (h c (List.mem_cons_self c rest)),
      ih (fun x hx => h x (List.mem_cons_of_mem c hx))]

lemma work_su_names_cl (cl : List Nat) (ck : Nat → Bool) (envs : List IterEnv)
    (cl2 : List Nat)
    (h : (work cl ck envs).outcome = WorkOutcome.serverUnavailable cl2) :
    cl2 = cl := by
  induction envs with
  | nil => rw [work] at h; exact absurd h (by simp)
  | cons e rest ih =>
    by_cases ha : e.alive = []
    · rw [work_cons_su cl ck e rest ha] at h
      exact (WorkOutcome.serverUnavailable.inj h.symm)
    · cases hb : e.beforeRes
      · rw [work_cons_break cl ck e rest ha hb] at h
        by_cases hc : (closeAll ck e.alive).2 = true
        · rw [if_pos hc] at h; exact absurd h (by simp)
        · rw [if_neg hc] at h; exact absurd h (by simp)
      · cases haf : e.afterRes
        · rw [work_cons_stop cl ck e rest ha hb haf] at h
          by_cases hc : (closeAll ck e.alive).2 = true
          · rw [if_pos hc] at h; exact absurd h (by simp)
          · rw [if_neg hc] at h; exact absurd h (by simp)
        · rw [work_cons_cont cl ck e rest ha hb haf] at h
          exact ih h

lemma work_su_iff (cl : List Nat) (ck : Nat → Bool) (envs : List IterEnv) :
    (work cl ck envs).outcome = WorkOutcome.serverUnavailable cl ↔
      ∃ pre e post, envs = pre ++ e :: post ∧ (∀ x ∈ pre, continuesIter x) ∧
        e.alive = [] := by
  induction envs with
  | nil =>
    constructor
    · intro h; rw [work] at h; exact absurd h (by simp)
    · rintro ⟨pre, e, post, heq, -, -⟩
      exact absurd heq (by simp)
  | cons e rest ih =>
    by_cases ha : e.alive = []
    · constructor
      · intro _
        exact ⟨[], e, rest, rfl, fun x hx => absurd hx (List.not_mem_nil x), ha⟩
      · intro _
        rw [work_cons_su cl ck e rest ha]
    · cases hb : e.beforeRes
      · constructor
        · intro h
          rw [work_cons_break cl ck e rest ha hb] at h
          by_cases hc : (closeAll ck e.alive).2 = true
          · rw [if_pos hc] at h; exact absurd h (by simp)
          · rw [if_neg hc] at h; exact absurd h (by simp)
        · rintro ⟨pre, e2, post, heq, hpre, he2⟩
          cases pre with
          | nil =>
            rw [List.nil_append] at heq
            obtain ⟨h1, -⟩ := List.cons.inj heq
            exact absurd (by rw [h1]; exact he2) ha
          | cons x pre2 =>
            rw [List.cons_append] at heq
            obtain ⟨h1, -⟩ := List.cons.inj heq
            have hcx := hpre x (List.mem_cons_self x pre2)
            rw [← h1] at hcx
            exact absurd hcx.2.1 (by simp [hb])
      · cases haf : e.afterRes
        · constructor
          · intro h
            rw [work_cons_stop cl ck e rest ha hb haf] at h
            by_cases hc : (closeAll ck e.alive).2 = true
            · rw [if_pos hc] at h; exact absurd h (by simp)
            · rw [if_neg hc] at h; exact absurd h (by simp)
          · rintro ⟨pre, e2, post, heq, hpre, he2⟩
            cases pre with
            | nil =>
              rw [List.nil_append] at heq
              obtain ⟨h1, -⟩ := List.cons.inj heq
              exact absurd (by rw [h1]; exact he2) ha
            | cons x pre2 =>
              rw [List.cons_append] at heq
              obtain ⟨h1, -⟩ := List.cons.inj heq
              have hcx := hpre x (List.mem_cons_self x pre2)
              rw [← h1] at hcx
              exact absurd hcx.2.2 (by simp [haf])
        · rw [work_cons_cont cl ck e rest ha hb haf]
          constructor
          · intro h
            obtain ⟨pre, e2, post, heq, hpre, he2⟩ := ih.mp h
            refine ⟨e :: pre, e2, post, by rw [List.cons_append, heq], ?_, he2⟩
            intro x hx
            rcases List.mem_cons.mp hx with h3 | h3
            · subst h3; exact ⟨ha, hb, haf⟩
            · exact hpre x h3
          · rintro ⟨pre, e2, post, heq, hpre, he2⟩
            cases pre with
            | nil =>
              rw [List.nil_append] at heq
              obtain ⟨h1, -⟩ := List.cons.inj heq
              exact absurd (by rw [h1]; exact he2) ha
            | cons x pre2 =>
              rw [List.cons_append] at heq
              obtain ⟨-, h2⟩ := List.cons.inj heq
              show (work cl ck rest).outcome = _
              exact ih.mpr ⟨pre2, e2, post, h2,
                fun y hy => hpre y (List.mem_cons_of_mem x hy), he2⟩

end WorkLemmas

/-- C2: `work` raises `ServerUnavailable` exactly when the alive list
computed at the top of an iteration is empty (all earlier iterations having
continued); in the raising iteration the only event is the alive-list
computation — `before_poll` is not called and no poll is attempted — and
the raised condition names the full configured connection list. -/
theorem work_server_unavailable_spec (cl : List Nat) (ck : Nat → Bool)
    (envs : List IterEnv) :
    ((work cl ck envs).outcome = WorkOutcome.serverUnavailable cl ↔
      ∃ pre e post, envs = pre ++ e :: post ∧ (∀ x ∈ pre, continuesIter x) ∧
        e.alive = []) ∧
    (∀ pre e post, envs = pre ++ e :: post → (∀ x ∈ pre, continuesIter x) →
      e.alive = [] →
      (work cl ck envs).iters = pre.map fullIterTrace ++ [[Ev.evGetAlive []]] ∧
      (work cl ck envs).outcome = WorkOutcome.serverUnavailable cl) ∧
    (∀ cl2, (work cl ck envs).outcome = WorkOutcome.serverUnavailable cl2 →
      cl2 = cl) := by
  refine ⟨work_su_iff cl ck envs, ?_, work_su_names_cl cl ck envs⟩
  intro pre e post heq hpre healive
  subst heq
  rw [work_append_continuing cl ck pre (e :: post) hpre,
    work_cons_su cl ck e post healive]
  constructor
  · show pre.map fullIterTrace ++ [[Ev.evGetAlive e.alive]] = _
    rw [healive]
  · rfl

/-- C2 witness: one continuing iteration on connection `3`, then an empty
alive list: the second iteration records only the alive-list computation
and the loop raises naming the configured list `[3]`. -/
theorem work_server_unavailable_spec_witness :
    (work [3] (fun _ => true)
        [⟨[3], true, true, true⟩, ⟨[], true, true, true⟩]).iters
      = [⟨[3], true, true, true⟩].map fullIterTrace ++ [[Ev.evGetAlive []]] ∧
    (work [3] (fun _ => true)
        [⟨[3], true, true, true⟩, ⟨[], true, true, true⟩]).outcome
      = WorkOutcome.serverUnavailable [3] :=
  (work_server_unavailable_spec [3] (fun _ => true)
      [⟨[3], true, true, true⟩, ⟨[], true, true, true⟩]).2.1
    [⟨[3], true, true, true⟩] ⟨[], true, true, true⟩ [] rfl (by decide) rfl

/-- C4 counterexample: one alive iteration `[0, 1]` stopped by
`before_poll`, where closing connection `0` raises: connection `1` — alive
at the start of the last iteration — is never closed, and the close error
is surfaced out of `work` instead of being suppressed. -/
theorem work_close_counterexample :
    (work [0, 1] (fun c => decide (c ≠ 0)) [⟨[0, 1], false, true, true⟩]).lastAlive
      = [0, 1] ∧
    (work [0, 1] (fun c => decide (c ≠ 0)) [⟨[0, 1], false, true, true⟩]).closed
      = [] ∧
    (work [0, 1] (fun c => decide (c ≠ 0)) [⟨[0, 1], false, true, true⟩]).outcome
      = WorkOutcome.closeFailed := by
  decide

/-- C4 amended: on the graceful exit paths (a hook returned false) `work`
runs the shutdown loop over the connections alive at the start of the last
iteration; when every `close()` succeeds they are all closed and the run
finishes cleanly, but a raising `close()` stops the loop and the error
propagates (closing is NOT best-effort); on the fatal server-unavailable
exit the shutdown loop is not reached, the alive list of the raising
iteration being empty. -/
theorem work_close_on_exit_spec (cl : List Nat) (ck : Nat → Bool)
    (envs : List IterEnv) :
    (((work cl ck envs).outcome = WorkOutcome.finished ∨
        (work cl ck envs).outcome = WorkOutcome.closeFailed) →
      (∀ c ∈ (work cl ck envs).lastAlive, ck c = true) →
      (work cl ck envs).closed = (work cl ck envs).lastAlive ∧
        (work cl ck envs).outcome = WorkOutcome.finished) ∧
    (∀ cl2, (work cl ck envs).outcome = WorkOutcome.serverUnavailable cl2 →
      (work cl ck envs).closed = [] ∧ (work cl ck envs).lastAlive = []) := by
  induction envs with
  | nil =>
    rw [work]
    constructor
    · intro hout _
      rcases hout with h | h
      · exact absurd h (by simp)
      · exact absurd h (by simp)
    · intro cl2 h
      exact absurd h (by simp)
  | cons e rest ih =>
    by_cases ha : e.alive = []
    · rw [work_cons_su cl ck e rest ha]
      constructor
      · intro hout _
        rcases hout with h | h
        · exact absurd h (by simp)
        · exact absurd h (by simp)
      · intro cl2 _
        exact ⟨rfl, ha⟩
    · cases hb : e.beforeRes
      · rw [work_cons_break cl ck e rest ha hb]
        constructor
        · intro _ hclose
          have hca := closeAll_all_ok ck e.alive hclose
          constructor
          · show (closeAll ck e.alive).1 = e.alive
            rw [hca]
          · show (if (closeAll ck e.alive).2 then WorkOutcome.finished
              else WorkOutcome.closeFailed) = WorkOutcome.finished
            rw [hca]
            rfl
        · intro cl2 h
          have h2 : (if (closeAll ck e.alive).2 = true then WorkOutcome.finished
              else WorkOutcome.closeFailed) = WorkOutcome.serverUnavailable cl2 := h
          by_cases hc : (closeAll ck e.alive).2 = true
          · rw [if_pos hc] at h2; exact absurd h2 (by simp)
          · rw [if_neg hc] at h2; exact absurd h2 (by simp)
      · cases haf : e.afterRes
        · rw [work_cons_stop cl ck e rest ha hb haf]
          constructor
          · intro _ hclose
            have hca := closeAll_all_ok ck e.alive hclose
            constructor
            · show (closeAll ck e.alive).1 = e.alive
              rw [hca]
            · show (if (closeAll ck e.alive).2 then WorkOutcome.finished
                else WorkOutcome.closeFailed) = WorkOutcome.finished
              rw [hca]
              rfl
          · intro cl2 h
            have h2 : (if (closeAll ck e.alive).2 = true then WorkOutcome.finished
                else WorkOutcome.closeFailed) = WorkOutcome.serverUnavailable cl2 := h
            by_cases hc : (closeAll ck e.alive).2 = true
            · rw [if_pos hc] at h2; exact absurd h2 (by simp)
            · rw [if_neg hc] at h2; exact absurd h2 (by simp)
        · rw [work_cons_cont cl ck e rest ha hb haf]
          exact ih

/-- C4 amended witness: a graceful stop with one alive connection `2` and a
succeeding `close()`: it is closed and the run finishes with no error. -/
theorem work_close_on_exit_spec_witness :
    (work [2] (fun _ => true) [⟨[2], false, true, true⟩]).closed
      = (work [2] (fun _ => true) [⟨[2], false, true, true⟩]).lastAlive ∧
    (work [2] (fun _ => true) [⟨[2], false, true, true⟩]).outcome
      = WorkOutcome.finished :=
  (work_close_on_exit_spec [2] (fun _ => true) [⟨[2], false, true, true⟩]).1
    (Or.inl (by decide)) (by decide)
